import Mathlib

/-!
Shallow embedding of the Lower Eyre Peninsula development-application scraper.

The repository contains two variants of the PDF parser:
* `src/scraper.ts` — the "column mode" parser: the leftmost text column of a
  page provides per-row anchors, column headings are captured from a heading
  row, and records accumulate in a map keyed by application number.
* `src/unnamed/part_000` — the "grid mode" parser: ruled lines are turned into
  cells, text elements are assigned to owning cells, cells are grouped into
  rows and fields are located by horizontal overlap with heading cells.

Coordinates are modelled with `ℚ` (the source uses JS numbers).  JS string
operations (`trim`, `split`, `replace`, `toUpperCase`, …) are modelled by
structurally recursive functions over `List Char` so that all definitions are
kernel-executable on concrete inputs.
-/

namespace LEP

/-! ## JS string primitives, modelled over `List Char` -/

/-- Model of JS `String.prototype.trim`: removes leading and trailing
whitespace characters. -/
def jsTrimL (s : List Char) : List Char :=
  ((s.dropWhile Char.isWhitespace).reverse.dropWhile Char.isWhitespace).reverse

/-- `trim` on `String`. -/
def jsTrim (s : String) : String := ⟨jsTrimL s.data⟩

/-- Model of JS `toUpperCase` (ASCII). -/
def jsUpper (s : String) : String := ⟨s.data.map Char.toUpper⟩

/-- Model of JS `toLowerCase` (ASCII). -/
def jsLower (s : String) : String := ⟨s.data.map Char.toLower⟩

/-- Model of JS `split` with a one-character separator: `"a/b".split("/")`.
`""` splits to `[""]`, exactly as in JS. -/
def splitOnChar (c : Char) : List Char → List (List Char)
  | [] => [[]]
  | x :: rest =>
    match splitOnChar c rest with
    | [] => [[]]
    | h :: t => if x = c then [] :: h :: t else (x :: h) :: t

/-- `split` on `String`, one-character separator. -/
def jsSplit (s : String) (c : Char) : List String :=
  (splitOnChar c s.data).map fun l => ⟨l⟩

/-- Model of JS `Array.prototype.join(sep)`. -/
def joinWith (sep : String) : List String → String
  | [] => ""
  | [s] => s
  | s :: rest => s ++ sep ++ joinWith sep rest

/-- Fuel-driven worker for global literal-string replacement; the fuel is the
length of the subject string, which suffices because every step consumes at
least one character. -/
def replaceAllFuel (pat rep : List Char) : Nat → List Char → List Char
  | 0, s => s
  | _ + 1, [] => []
  | fuel + 1, c :: rest =>
    if pat ≠ [] ∧ pat.isPrefixOf (c :: rest) then
      rep ++ replaceAllFuel pat rep fuel (List.drop (pat.length - 1) rest)
    else
      c :: replaceAllFuel pat rep fuel rest

/-- Model of JS `s.replace(/pat/g, rep)` for a literal pattern: left-to-right,
non-overlapping replacement of every occurrence. -/
def replaceAll (s pat rep : String) : String :=
  ⟨replaceAllFuel pat.data rep.data s.data.length s.data⟩

/-- Fuel-driven worker for `collapseWs`. -/
def collapseWsFuel : Nat → List Char → List Char
  | 0, s => s
  | _ + 1, [] => []
  | fuel + 1, c :: rest =>
    if c.isWhitespace ∧ ¬ (rest.takeWhile Char.isWhitespace).isEmpty then
      ' ' :: collapseWsFuel fuel (rest.dropWhile Char.isWhitespace)
    else
      c :: collapseWsFuel fuel rest

/-- Model of JS `s.replace(/\s\s+/g, " ")`: every run of two or more
whitespace characters becomes a single space; an isolated whitespace
character is kept as is. -/
def collapseWs (s : String) : String := ⟨collapseWsFuel s.data.length s.data⟩

/-- Model of JS `s.replace(/\s/g, "")`: remove every whitespace character. -/
def stripWs (s : String) : String := ⟨s.data.filter fun c => ¬ c.isWhitespace⟩

/-- Model of JS `s.toUpperCase().replace(/[^A-Z]/g, "")`. -/
def lettersOnlyUpper (s : String) : String :=
  ⟨(jsUpper s).data.filter fun c => 'A' ≤ c ∧ c ≤ 'Z'⟩

/-- Model of JS `s.toLowerCase().replace(/\s/g, "")` used for grid-mode
heading matching. -/
def normHeadGrid (s : String) : String := stripWs (jsLower s)

/-- Model of JS `s.startsWith(p)` / an anchored literal regex test. -/
def jsStartsWith (s p : String) : Bool := p.data.isPrefixOf s.data

/-- Does the string start with `"HD "`, case-insensitively (regex `/^HD /i`)? -/
def hdStartCI (s : String) : Bool :=
  match s.data with
  | h :: d :: sp :: _ => h.toLower = 'h' ∧ d.toLower = 'd' ∧ sp = ' '
  | _ => false

/-- Model of JS `s.replace(/^HD /i, "")`. -/
def stripHdStart (s : String) : String :=
  if hdStartCI s then ⟨s.data.drop 3⟩ else s

/-- Splits a character list at its last `','`: the result pairs the part
before the comma and the part after it (JS `lastIndexOf(",")` followed by the
two `substring` calls); `none` when no comma occurs. -/
def splitAtLastComma : List Char → Option (List Char × List Char)
  | [] => none
  | c :: rest =>
    match splitAtLastComma rest with
    | some (a, b) => some (c :: a, b)
    | none => if c = ',' then some ([], rest) else none

/-- Does the decimal-digit pattern `[0-9]+\/[0-9]+\/[0-9]+` match starting at
the head of the character list (trailing characters allowed)? -/
def appNumAt (l : List Char) : Bool :=
  let p1 := l.span Char.isDigit
  match p1.1, p1.2 with
  | [], _ => false
  | _ :: _, '/' :: r2 =>
    let p2 := r2.span Char.isDigit
    match p2.1, p2.2 with
    | [], _ => false
    | _ :: _, '/' :: r4 => ¬ (r4.takeWhile Char.isDigit).isEmpty
    | _, _ => false
  | _, _ => false

/-- Worker for `appNumTest`: unanchored search for the pattern. -/
def appNumSearch : List Char → Bool
  | [] => false
  | c :: rest => appNumAt (c :: rest) ∨ appNumSearch rest

/-- Model of JS `/[0-9]+\/[0-9]+\/[0-9]+/.test(s)`: the pattern may match
anywhere inside the string. -/
def appNumTest (s : String) : Bool := appNumSearch s.data

/-- `slice(-n)` on arrays: the last `n` elements (the whole list when `n`
exceeds the length, exactly as JS `slice` with a negative start). -/
def lastN (l : List String) (n : Nat) : List String := l.drop (l.length - n)

/-- `splice(-n, n)` on arrays: everything except the last `n` elements. -/
def dropLastN (l : List String) (n : Nat) : List String := l.take (l.length - n)

/-! ## Edit distance and the `didyoumean2` fuzzy matcher

`didyoumean2` is used by the scraper with `returnType: FIRST_CLOSEST_MATCH`,
`thresholdType: EDIT_DISTANCE`, `caseSensitive: false`, `trimSpaces: true`:
among the candidates whose Levenshtein distance to the input (both sides
trimmed and lowercased) is at most the threshold, the first one with the
minimal distance is returned, or `null` when none qualifies. -/

/-- One inner step of the Levenshtein dynamic program: extends the new row
given the remaining subject characters, the tail of the previous row, the
diagonal entry and the entry to the left. -/
def levStep (y : Char) : List Char → List Nat → Nat → Nat → List Nat
  | [], _, _, _ => []
  | _ :: _, [], _, _ => []
  | x :: xs, up :: rest, diag, left =>
    let v := min (diag + (if x = y then 0 else 1)) (min (up + 1) (left + 1))
    v :: levStep y xs rest up v

/-- Builds the next row of the Levenshtein dynamic program from the previous
row when consuming one character `y` of the second string. -/
def levRow (xs : List Char) (y : Char) (prev : List Nat) : List Nat :=
  match prev with
  | [] => []
  | p0 :: rest => (p0 + 1) :: levStep y xs rest p0 (p0 + 1)

/-- Levenshtein edit distance between two character lists, computed by the
classic row-by-row dynamic program (structurally recursive, hence
kernel-executable). -/
def levenshtein (a b : List Char) : Nat :=
  (b.foldl (fun row y => levRow a y row) (List.range (a.length + 1))).getLastD 0

/-- Normalisation applied by `didyoumean2` before comparison under
`caseSensitive: false, trimSpaces: true`. -/
def dymNorm (s : String) : String := jsLower (jsTrim s)

/-- Picks the first pair with minimal second component. -/
def firstClosest (l : List (String × Nat)) : Option (String × Nat) :=
  l.foldl
    (fun best p =>
      match best with
      | none => some p
      | some q => if p.2 < q.2 then some p else some q)
    none

/-- Model of `didYouMean(input, candidates, {EDIT_DISTANCE, threshold,
FIRST_CLOSEST_MATCH, caseSensitive: false, trimSpaces: true})`. -/
def didYouMean (input : String) (candidates : List String) (threshold : Nat) :
    Option String :=
  let scored := candidates.map fun c => (c, levenshtein (dymNorm input).data (dymNorm c).data)
  match firstClosest (scored.filter fun p => p.2 ≤ threshold) with
  | none => none
  | some p => some p.1

/-! ## Geometry primitives -/

/-- A bounding rectangle (`interface Rectangle` in the source). -/
structure Rect where
  x : ℚ
  y : ℚ
  width : ℚ
  height : ℚ
deriving DecidableEq

/-- An element: a positioned run of text (`interface Element`). -/
structure Element extends Rect where
  text : String
deriving DecidableEq

/-- A grid-mode cell: a rectangle owning a list of elements. -/
structure Cell extends Rect where
  elements : List Element
deriving DecidableEq

/-- `intersect` from `src/unnamed/part_000`: the overlapping rectangle, or a
zero rectangle at the origin when the two do not meet on both axes. -/
def intersect (rectangle1 rectangle2 : Rect) : Rect :=
  let x1 := max rectangle1.x rectangle2.x
  let y1 := max rectangle1.y rectangle2.y
  let x2 := min (rectangle1.x + rectangle1.width) (rectangle2.x + rectangle2.width)
  let y2 := min (rectangle1.y + rectangle1.height) (rectangle2.y + rectangle2.height)
  if x2 ≥ x1 ∧ y2 ≥ y1 then ⟨x1, y1, x2 - x1, y2 - y1⟩ else ⟨0, 0, 0, 0⟩

/-- `getArea` from `src/unnamed/part_000`. -/
def getArea (rectangle : Rect) : ℚ := rectangle.width * rectangle.height

/-- `getPercentageOfElementInCell` from `src/unnamed/part_000`: the fraction
of the element's area lying inside the cell, as a percentage; `0` when the
element has zero area. -/
def getPercentageOfElementInCell (element cell : Rect) : ℚ :=
  let elementArea := getArea element
  let intersectionArea := getArea (intersect cell element)
  if elementArea = 0 then 0 else intersectionArea * 100 / elementArea

/-- `getHorizontalOverlapPercentage` (identical in both source files): the
ratio of x-projection intersection to x-projection union as a percentage;
`0` when either argument is `undefined`, either width is zero, or the
projections do not overlap. -/
def getHorizontalOverlapPercentage : Option Rect → Option Rect → ℚ
  | some rectangle1, some rectangle2 =>
    let startX1 := rectangle1.x
    let endX1 := rectangle1.x + rectangle1.width
    let startX2 := rectangle2.x
    let endX2 := rectangle2.x + rectangle2.width
    if startX1 ≥ endX2 ∨ endX1 ≤ startX2 ∨ rectangle1.width = 0 ∨ rectangle2.width = 0 then 0
    else
      let intersectionWidth := min endX1 endX2 - max startX1 startX2
      let unionWidth := max endX1 endX2 - min startX1 startX2
      intersectionWidth * 100 / unionWidth
  | _, _ => 0

/-! ## Reference dictionaries and the address normalizer -/

/-- The three reference dictionaries read by `readAddressInformation`:
street-name keys (`Object.keys(StreetNames)` in insertion order), the
street-suffix expansion map, and the suburb map (key, canonical
"SUBURB STATE POSTCODE" value) in insertion order. -/
structure AddressData where
  streetNames : List String
  streetSuffixes : List (String × String)
  suburbNames : List (String × String)
deriving DecidableEq

/-- Tokenisation and suffix expansion at the head of `formatStreetName`:
uppercase, split on spaces, pop the final token and push back its
street-suffix expansion when the dictionary knows it. -/
def expandSuffix (d : AddressData) (text : String) : List String :=
  let tokens := jsSplit (jsUpper (jsTrim text)) ' '
  let token := tokens.getLastD ""
  tokens.dropLast ++ [(d.streetSuffixes.lookup token).getD token]

/-- The exact-match loop of `formatStreetName`
(`for (let index = 6; index >= 2; index--)`): the first trailing token
window that is a known street name wins and the whole token list is
returned re-joined. -/
def exactLoop (d : AddressData) (tokens : List String) : List Nat → Option String
  | [] => none
  | index :: rest =>
    if d.streetNames.contains (joinWith " " (lastN tokens index)) then
      some (joinWith " " tokens)
    else
      exactLoop d tokens rest

/-- The fuzzy-match loop of `formatStreetName`: for each window size the
edit-distance threshold is `7 - index`; on a match the window is removed and
the canonical matched name appended. -/
def fuzzyLoop (d : AddressData) (tokens : List String) : List Nat → Option String
  | [] => none
  | index :: rest =>
    let threshold := 7 - index
    match didYouMean (joinWith " " (lastN tokens index)) d.streetNames threshold with
    | some streetNameMatch =>
      some (jsTrim (joinWith " " (dropLastN tokens index) ++ " " ++ streetNameMatch))
    | none => fuzzyLoop d tokens rest

/-- `formatStreetName` from `src/scraper.ts` (identical in
`src/unnamed/part_000`): suffix expansion, then the exact-match loop over
window sizes 6 down to 2, then the fuzzy loop over the same windows, and
otherwise the input text unchanged. -/
def formatStreetName (d : AddressData) (text : String) : String :=
  let tokens := expandSuffix d text
  match exactLoop d tokens [6, 5, 4, 3, 2] with
  | some r => r
  | none =>
    match fuzzyLoop d tokens [6, 5, 4, 3, 2] with
    | some r => r
    | none => text

/-- The spec's own description of `formatStreetName` (§4.5): an exact pass
over shrinking trailing windows of sizes 6 down to 2 where the longest match
wins and the full token sequence is returned; failing that, a fuzzy pass over
the same windows with edit-distance threshold `7 - windowSize` and
first-closest-match tie-break, replacing the window with the matched name and
keeping the prefix tokens; failing both, the input text unchanged. -/
def streetNameFormatSpec (d : AddressData) (text : String) : String :=
  let tokens := expandSuffix d text
  let exactPass := [6, 5, 4, 3, 2].findSome? fun index =>
    if d.streetNames.contains (joinWith " " (lastN tokens index)) then
      some (joinWith " " tokens)
    else none
  let fuzzyPass := [6, 5, 4, 3, 2].findSome? fun index =>
    (didYouMean (joinWith " " (lastN tokens index)) d.streetNames (7 - index)).map
      fun m => jsTrim (joinWith " " (dropLastN tokens index) ++ " " ++ m)
  ((exactPass).orElse fun _ => fuzzyPass).getD text

/-- The four fixed terrace-direction substitutions at the head of
`formatAddress`. -/
def tceReplace (s : String) : String :=
  replaceAll
    (replaceAll
      (replaceAll
        (replaceAll s " TCE NTH" " TERRACE NORTH")
        " TCE STH" " TERRACE SOUTH")
      " TCE EAST" " TERRACE EAST")
    " TCE WEST" " TERRACE WEST"

/-- `formatAddress` from `src/scraper.ts` (identical in
`src/unnamed/part_000`): trim, terrace substitutions, split at the last
comma (returning the current string when there is none), fuzzy-resolve the
suburb with threshold 2 (returning the current string on a miss), and
otherwise rebuild from the formatted street name and the canonical suburb
entry. -/
def formatAddress (d : AddressData) (address0 : String) : String :=
  let address := tceReplace (jsTrim address0)
  match splitAtLastComma address.data with
  | none => address
  | some (streetPart, suburbPart) =>
    let streetName : String := ⟨streetPart⟩
    let suburbName : String := ⟨suburbPart⟩
    match didYouMean suburbName (d.suburbNames.map Prod.fst) 2 with
    | none => address
    | some sub => formatStreetName d streetName ++ ", " ++ (d.suburbNames.lookup sub).getD ""

/-! ## Strict date parsing (model of `moment(text, format, true)`) -/

/-- Is the character list a non-empty run of decimal digits? -/
def allDigits (l : List Char) : Bool := ¬ l.isEmpty ∧ l.all Char.isDigit

/-- Decimal value of a digit list. -/
def natOfDigits (l : List Char) : Nat := l.foldl (fun n c => 10 * n + (c.toNat - 48)) 0

/-- Gregorian leap-year test. -/
def isLeap (y : Nat) : Bool := (y % 4 = 0 ∧ y % 100 ≠ 0) ∨ y % 400 = 0

/-- Days in a month of the Gregorian calendar. -/
def daysInMonth (y m : Nat) : Nat :=
  if m = 2 then (if isLeap y then 29 else 28)
  else if m = 4 ∨ m = 6 ∨ m = 9 ∨ m = 11 then 30
  else 31

/-- Zero-padded two-digit decimal rendering. -/
def pad2 (n : Nat) : String := if n < 10 then "0" ++ toString n else toString n

/-- Renders a valid date as `YYYY-MM-DD` (the `moment` output format used by
both parsers). -/
def formatYMD (y m day : Nat) : String :=
  toString y ++ "-" ++ pad2 m ++ "-" ++ pad2 day

/-- Model of `moment(s, "D/MM/YYYY", true)` followed by `format("YYYY-MM-DD")`
when valid: strict day (1–2 digits) / month (2 digits) / year (4 digits) with
calendar validation; `none` plays the role of an invalid moment. -/
def parseDateDMMYYYY (s : String) : Option String :=
  match jsSplit s '/' with
  | [ds, ms, ys] =>
    if allDigits ds.data ∧ ds.data.length ≤ 2 ∧
        allDigits ms.data ∧ ms.data.length = 2 ∧
        allDigits ys.data ∧ ys.data.length = 4 then
      let day := natOfDigits ds.data
      let m := natOfDigits ms.data
      let y := natOfDigits ys.data
      if 1 ≤ m ∧ m ≤ 12 ∧ 1 ≤ day ∧ day ≤ daysInMonth y m then
        some (formatYMD y m day)
      else none
    else none
  | _ => none

/-- The twelve month abbreviations recognised by `MMM`. -/
def monthAbbrevs : List String :=
  ["JAN", "FEB", "MAR", "APR", "MAY", "JUN", "JUL", "AUG", "SEP", "OCT", "NOV", "DEC"]

/-- Worker for `monthIndex`. -/
def monthIndexAux (s : String) : List String → Nat → Option Nat
  | [], _ => none
  | m :: rest, i => if jsUpper s = m then some i else monthIndexAux s rest (i + 1)

/-- 1-based index of a month abbreviation (case-insensitive). -/
def monthIndex (s : String) : Option Nat := monthIndexAux s monthAbbrevs 1

/-- Model of `moment(s, "D-MMM-YY", true)` followed by `format("YYYY-MM-DD")`
when valid: strict day (1–2 digits) - month abbreviation - two-digit year,
with the moment two-digit-year rule (`YY ≤ 68` means `20YY`, otherwise
`19YY`). -/
def parseDateDMMMYY (s : String) : Option String :=
  match jsSplit s '-' with
  | [ds, ms, ys] =>
    if allDigits ds.data ∧ ds.data.length ≤ 2 ∧ allDigits ys.data ∧ ys.data.length = 2 then
      match monthIndex ms with
      | none => none
      | some m =>
        let day := natOfDigits ds.data
        let yy := natOfDigits ys.data
        let y := if yy ≤ 68 then 2000 + yy else 1900 + yy
        if 1 ≤ day ∧ day ≤ daysInMonth y m then some (formatYMD y m day) else none
    else none
  | _ => none

/-! ## Development-application records -/

/-- `CommentUrl` constant, identical in both source files. -/
def CommentUrl : String := "mailto:mail@dclep.sa.gov.au"

/-- A development-application record. -/
structure DevApp where
  applicationNumber : String
  address : String
  description : String
  informationUrl : String
  commentUrl : String
  scrapeDate : String
  receivedDate : String
  legalDescription : String
deriving DecidableEq

/-! ## Grid-mode parser (`parsePdf` in `src/unnamed/part_000`)

The decoding of the PDF instruction stream (`parseCells` / `parseElements`)
is the excluded collaborator; the embedding starts from the per-page lists of
cells and elements. -/

/-- Generic stable insertion of `x` into a sorted list: `x` is placed before
the first element `y` with `le x y`.  With `le` the non-strict version of a
JS comparator this models the stable `Array.prototype.sort`. -/
def insertSorted (le : α → α → Bool) (x : α) : List α → List α
  | [] => [x]
  | y :: rest => if le x y then x :: y :: rest else y :: insertSorted le x rest

/-- Stable insertion sort (model of the stable JS `Array.prototype.sort`). -/
def insertionSort (le : α → α → Bool) : List α → List α
  | [] => []
  | x :: rest => insertSorted le x (insertionSort le rest)

/-- Non-strict form of `cellComparer`: approximate y band of 2, then x. -/
def cellLe (a b : Cell) : Bool := if |a.y - b.y| < 2 then a.x ≤ b.x else a.y ≤ b.y

/-- Non-strict form of `elementComparer`: approximate y band of 1, then x. -/
def elemLe (a b : Element) : Bool := if |a.y - b.y| < 1 then a.x ≤ b.x else a.y ≤ b.y

/-- Non-strict form of `rowComparer`: by the first cell's y. -/
def rowLe (a b : List Cell) : Bool :=
  match a.head?, b.head? with
  | some a0, some b0 => a0.y ≤ b0.y
  | _, _ => true

/-- Non-strict form of `rowCellComparer`: by x. -/
def cellXLe (a b : Cell) : Bool := a.x ≤ b.x

/-- The page's vertical axis is inverted once: `y' = -(y + height)`. -/
def invertCell (c : Cell) : Cell := { c with y := -(c.y + c.height) }

/-- The page's vertical axis is inverted once: `y' = -(y + height)`. -/
def invertElement (e : Element) : Element := { e with y := -(e.y + e.height) }

/-- `cells.find(cell => getPercentageOfElementInCell(element, cell) > 50)`:
the owning cell of an element is the first cell, in the sorted cell order,
holding strictly more than half of the element's area. -/
def findOwnerCell (element : Element) (cells : List Cell) : Option Cell :=
  cells.find? fun cell =>
    decide (getPercentageOfElementInCell element.toRect cell.toRect > 50)

/-- Appends the element to the first cell owning it (the mutation
`ownerCell.elements.push(element)` applied to the cell located by
`findOwnerCell`). -/
def pushToOwner (element : Element) : List Cell → List Cell
  | [] => []
  | cell :: rest =>
    if getPercentageOfElementInCell element.toRect cell.toRect > 50 then
      { cell with elements := cell.elements ++ [element] } :: rest
    else
      cell :: pushToOwner element rest

/-- Allocates every element to its owning cell. -/
def assignElements (cells : List Cell) (elements : List Element) : List Cell :=
  elements.foldl (fun cs e => pushToOwner e cs) cells

/-- One step of row grouping: push the cell into the first row whose first
cell's y is within 2 units, else start a new row at the end. -/
def addToRows : List (List Cell) → Cell → List (List Cell)
  | [], cell => [[cell]]
  | row :: rest, cell =>
    match row.head? with
    | some first =>
      if |first.y - cell.y| < 2 then (row ++ [cell]) :: rest
      else row :: addToRows rest cell
    | none => row :: addToRows rest cell

/-- Groups the cells into rows by approximate y. -/
def groupRows (cells : List Cell) : List (List Cell) := cells.foldl addToRows []

/-- The page's element dump used in the skip log messages:
`elements.map(element => "[" + element.text + "]").join("")`. -/
def elementSummary (elements : List Element) : String :=
  joinWith "" (elements.map fun e => "[" ++ e.text ++ "]")

/-- Log message for a page with no reconstructed rows. -/
def noRowsMsg (es : String) : String :=
  "No development applications can be parsed from the current page because no rows were found (based on the grid).  Elements: " ++ es

/-- Log message for a page whose application-number heading is missing. -/
def noAppNumHeadingMsg (es : String) : String :=
  "No development applications can be parsed from the current page because the \"D/A Number\" column heading was not found.  Elements: " ++ es

/-- Log message for a page whose street-name heading is missing. -/
def noStreetHeadingMsg (es : String) : String :=
  "No development applications can be parsed from the current page because the \"Street Name\" column heading was not found.  Elements: " ++ es

/-- Log message for a page whose suburb/town heading is missing. -/
def noSuburbHeadingMsg (es : String) : String :=
  "No development applications can be parsed from the current page because the \"Town\" column heading was not found.  Elements: " ++ es

/-- Finds the first cell one of whose elements has the given normalised
heading text (`cells.find(cell => cell.elements.some(...))`). -/
def findHeadingCell (cells : List Cell) (key : String) : Option Cell :=
  cells.find? fun cell => cell.elements.any fun element => normHeadGrid element.text == key

/-- The joined text of a cell's elements with single-space separator,
whitespace runs collapsed, trimmed. -/
def cellText (c : Cell) : String :=
  jsTrim (collapseWs (joinWith " " (c.elements.map Element.text)))

/-- The text of a cell used for the application number: joined with no
separator and trimmed (`join("").trim()`). -/
def cellTextNoSep (c : Cell) : String :=
  jsTrim (joinWith "" (c.elements.map Element.text))

/-- The row cell assigned to a field: the first cell of the row whose
horizontal overlap with the field's heading cell exceeds 90%. -/
def findFieldCell (row : List Cell) (heading : Option Cell) : Option Cell :=
  row.find? fun cell =>
    decide (getHorizontalOverlapPercentage (some cell.toRect) (heading.map Cell.toRect) > 90)

/-- Extraction of one development application from one grid row
(`src/unnamed/part_000`, the body of the row loop): locate the field cells,
validate the application number against `[0-9]+\/[0-9]+\/[0-9]+`, require
non-empty street and suburb text and a non-empty formatted address, then
build the record.  Returns the optional record and the log lines. -/
def gridProcessRow (row : List Cell) (applicationNumberHeadingCell : Cell)
    (receivedDateHeadingCell legalDescriptionHeadingCell : Option Cell)
    (streetNameHeadingCell suburbNameHeadingCell : Cell)
    (descriptionHeadingCell : Option Cell)
    (url scrapeDate : String) (d : AddressData) : Option DevApp × List String :=
  let applicationNumberCell := findFieldCell row (some applicationNumberHeadingCell)
  let receivedDateCell := findFieldCell row receivedDateHeadingCell
  let legalDescriptionCell := findFieldCell row legalDescriptionHeadingCell
  let streetNameCell := findFieldCell row (some streetNameHeadingCell)
  let suburbNameCell := findFieldCell row (some suburbNameHeadingCell)
  let descriptionCell := findFieldCell row descriptionHeadingCell
  match applicationNumberCell with
  | none => (none, [])
  | some appCell =>
    let applicationNumber := cellTextNoSep appCell
    if ¬ appNumTest applicationNumber then (none, [])
    else
      let foundLog := "Found development application " ++ applicationNumber ++ "."
      match streetNameCell with
      | none =>
        (none, [foundLog, "Ignoring the development application because it has no street name cell."])
      | some sCell =>
        match suburbNameCell with
        | none =>
          (none, [foundLog, "Ignoring the development application because it has no suburb name cell."])
        | some uCell =>
          let streetName := cellText sCell
          let suburbName := cellText uCell
          if streetName = "" then
            (none, [foundLog, "Ignoring the development application because it has no street name."])
          else if suburbName = "" then
            (none, [foundLog, "Ignoring the development application because it has no suburb name."])
          else
            let address := formatAddress d (streetName ++ ", " ++ suburbName)
            if address = "" then
              (none, [foundLog, "Ignoring the development application because the address is blank."])
            else
              let description :=
                match descriptionCell with
                | some c => cellText c
                | none => ""
              let receivedDate :=
                match receivedDateCell with
                | some c =>
                  match c.elements.head? with
                  | some e => parseDateDMMYYYY (jsTrim e.text)
                  | none => none
                | none => none
              let legalDescription :=
                match legalDescriptionCell with
                | some c => cellText c
                | none => ""
              (some {
                applicationNumber := applicationNumber
                address := address
                description := if description = "" then "No Description Provided" else description
                informationUrl := url
                commentUrl := CommentUrl
                scrapeDate := scrapeDate
                receivedDate := (receivedDate).getD ""
                legalDescription := legalDescription }, [foundLog])

/-- The per-page grid synthesis from grouped rows onward
(`src/unnamed/part_000` lines 303–412): group cells into rows, skip the page
when no rows were found, sort rows and row cells, locate heading cells, skip
the page when a mandatory heading is missing, then fold the rows through
`gridProcessRow`.  Returns the page's records and log lines. -/
def gridPageCore (cells : List Cell) (elements : List Element)
    (url scrapeDate : String) (d : AddressData) : List DevApp × List String :=
  let rows := groupRows cells
  if rows.isEmpty then ([], [noRowsMsg (elementSummary elements)])
  else
    let sortedRows := (insertionSort rowLe rows).map (insertionSort cellXLe)
    let applicationNumberHeadingCell := findHeadingCell cells "d/anumber"
    let receivedDateHeadingCell := findHeadingCell cells "received"
    let legalDescriptionHeadingCell :=
      match findHeadingCell cells "allotmentor" with
      | some c => some c
      | none => findHeadingCell cells "allotment/"
    let streetNameHeadingCell := findHeadingCell cells "streetname"
    let suburbNameHeadingCell := findHeadingCell cells "town"
    let descriptionHeadingCell := findHeadingCell cells "proposal"
    match applicationNumberHeadingCell with
    | none => ([], [noAppNumHeadingMsg (elementSummary elements)])
    | some appH =>
      match streetNameHeadingCell with
      | none => ([], [noStreetHeadingMsg (elementSummary elements)])
      | some streetH =>
        match suburbNameHeadingCell with
        | none => ([], [noSuburbHeadingMsg (elementSummary elements)])
        | some suburbH =>
          sortedRows.foldl
            (fun acc row =>
              match gridProcessRow row appH receivedDateHeadingCell
                  legalDescriptionHeadingCell streetH suburbH descriptionHeadingCell
                  url scrapeDate d with
              | (r, logs) => (acc.1 ++ r.toList, acc.2 ++ logs))
            ([], [])

/-- One full grid-mode page: invert the vertical axis of cells and elements,
sort both, allocate elements to their owning cells, then run the core page
synthesis. -/
def gridParsePage (cells0 : List Cell) (elements0 : List Element)
    (url scrapeDate : String) (d : AddressData) : List DevApp × List String :=
  let cells1 := insertionSort cellLe (cells0.map invertCell)
  let elements1 := insertionSort elemLe (elements0.map invertElement)
  gridPageCore (assignElements cells1 elements1) elements1 url scrapeDate d

/-! ## Column-mode parser (`parsePdf` in `src/scraper.ts`)

The leftmost text column provides one anchor element per row; the seven
heading elements are captured from a heading row (the anchor whose
letters-only uppercase text is `"DEVNO"`) and may be recaptured later in the
document.  Records accumulate across the whole document in a map keyed by
application number. -/

/-- The captured heading elements (each may be absent). -/
structure Headings where
  receivedDate : Option Element
  lotNumber : Option Element
  houseNumber : Option Element
  streetName : Option Element
  plan : Option Element
  suburbName : Option Element
  description : Option Element
deriving DecidableEq

/-- The all-absent heading capture (the parser state before any heading row
has been seen). -/
def Headings.empty : Headings := ⟨none, none, none, none, none, none, none⟩

/-- Does the anchor element start a heading row
(`text.toUpperCase().replace(/[^A-Z]/g, "") === "DEVNO"`)? -/
def isHeadingAnchor (e : Element) : Bool := lettersOnlyUpper e.text == "DEVNO"

/-- Captures the seven heading elements from a heading row by
letters-only-uppercase text match (`src/scraper.ts` lines 307–313). -/
def captureHeadings (row : List Element) : Headings where
  receivedDate := row.find? fun e => lettersOnlyUpper e.text == "LODGED"
  lotNumber := row.find? fun e => lettersOnlyUpper e.text == "LOTNO"
  houseNumber := row.find? fun e => lettersOnlyUpper e.text == "STNO"
  streetName := row.find? fun e => lettersOnlyUpper e.text == "STNAME"
  plan := row.find? fun e => lettersOnlyUpper e.text == "FPDP"
  suburbName := row.find? fun e => lettersOnlyUpper e.text == "SUBURBHDOF"
  description := row.find? fun e => lettersOnlyUpper e.text == "DESCRIPTIONOFDEVELOPMENT"

/-- The row elements contributing to a field: those whose horizontal overlap
with the field's captured heading element is greater than 0 (and none when
the heading was never captured). -/
def filterByHeading (heading : Option Element) (row : List Element) : List Element :=
  row.filter fun element =>
    decide (getHorizontalOverlapPercentage (heading.map Element.toRect) (some element.toRect) > 0)

/-- The text of a field: element texts joined with single spaces, whitespace
runs collapsed, trimmed. -/
def joinElems (l : List Element) : String :=
  jsTrim (collapseWs (joinWith " " (l.map Element.text)))

/-- The suburb/hundred disentangling of `src/scraper.ts` lines 369–381:
split on `/`; with exactly two parts, the second part (trimmed) starting
with the literal prefix `"HD "` makes it the hundred name and the first part
the suburb, otherwise the first part is the hundred name and the second the
suburb; finally a leading case-insensitive `"HD "` is stripped from both.
Returns `(suburbName, hundredName)`. -/
def splitSuburbHundred (suburbName0 : String) : String × String :=
  let suburbNameTokens := jsSplit suburbName0 '/'
  let p :=
    if suburbNameTokens.length = 2 then
      if jsStartsWith (jsTrim (suburbNameTokens.getD 1 "")) "HD " then
        (jsTrim (suburbNameTokens.getD 0 ""), jsTrim (suburbNameTokens.getD 1 ""))
      else
        (jsTrim (suburbNameTokens.getD 1 ""), jsTrim (suburbNameTokens.getD 0 ""))
    else (suburbName0, "")
  (stripHdStart p.1, stripHdStart p.2)

/-- Updates the binding of `k` in place, or appends a new binding at the end
(the JS "object keyed by string" idiom, whose `Object.values` order is
insertion order). -/
def setBinding : List (String × DevApp) → String → DevApp → List (String × DevApp)
  | [], k, v => [(k, v)]
  | (k', v') :: rest, k, v =>
    if k' = k then (k, v) :: rest else (k', v') :: setBinding rest k v

/-- The record created when an application number is first seen
(`src/scraper.ts` lines 408–417). -/
def newDevApp (applicationNumber url scrapeDate : String) : DevApp where
  applicationNumber := applicationNumber
  address := ""
  description := "No Description Provided"
  informationUrl := url
  commentUrl := CommentUrl
  scrapeDate := scrapeDate
  receivedDate := ""
  legalDescription := ""

/-- The guarded field merge of `src/scraper.ts` lines 421–428:
`receivedDate` is overwritten whenever the received-date heading is captured
(even by the empty string when the parse failed); `address` whenever any of
the house-number/street/suburb headings is captured; `legalDescription`
whenever any of the lot/plan/suburb headings is captured; `description` only
when the description heading is captured and the (defaulted) description
text is non-empty. -/
def mergeFields (h : Headings) (base : DevApp) (receivedDate : Option String)
    (address legalDescription description : String) : DevApp :=
  let r1 := if h.receivedDate.isSome then { base with receivedDate := receivedDate.getD "" } else base
  let r2 :=
    if h.houseNumber.isSome ∨ h.streetName.isSome ∨ h.suburbName.isSome then
      { r1 with address := address }
    else r1
  let r3 :=
    if h.lotNumber.isSome ∨ h.plan.isSome ∨ h.suburbName.isSome then
      { r2 with legalDescription := legalDescription }
    else r2
  if h.description.isSome ∧ description ≠ "" then
    { r3 with description := description }
  else r3

/-- One non-heading anchor row of the column-mode parser (`src/scraper.ts`
lines 319–428): extract every field from the row elements by horizontal
overlap with the captured headings, then merge into the record map keyed by
the anchor's application number. -/
def processColumnAnchorRow (d : AddressData) (url scrapeDate : String)
    (h : Headings) (row : List Element) (anchor : Element)
    (apps : List (String × DevApp)) : List (String × DevApp) :=
  let receivedDateElements := filterByHeading h.receivedDate row
  let lotNumberElements := filterByHeading h.lotNumber row
  let houseNumberElements := filterByHeading h.houseNumber row
  let streetNameElements := filterByHeading h.streetName row
  let planElements := filterByHeading h.plan row
  let suburbNameElements := filterByHeading h.suburbName row
  let descriptionElements := filterByHeading h.description row
  let applicationNumber := jsTrim (stripWs anchor.text)
  let receivedDate := parseDateDMMMYY (joinElems receivedDateElements)
  let lotNumber := joinElems lotNumberElements
  let houseNumber := joinElems houseNumberElements
  let streetName := joinElems streetNameElements
  let plan := joinElems planElements
  let pair := splitSuburbHundred (joinElems suburbNameElements)
  let suburbName := pair.1
  let hundredName := pair.2
  let address := formatAddress d
    (if streetName ≠ "" ∧ suburbName ≠ "" then
      jsUpper (houseNumber ++ " " ++ streetName ++ ", " ++ suburbName)
    else "")
  let description0 := joinElems descriptionElements
  let description := if description0 = "" then "No Description Provided" else description0
  let legalDescriptionItems :=
    (if lotNumber ≠ "" then ["Lot " ++ lotNumber] else []) ++
    (if plan ≠ "" then ["Plan " ++ plan] else []) ++
    (if hundredName ≠ "" then ["Hundred " ++ hundredName] else [])
  let legalDescription := joinWith ", " legalDescriptionItems
  let base := (apps.lookup applicationNumber).getD (newDevApp applicationNumber url scrapeDate)
  setBinding apps applicationNumber
    (mergeFields h base receivedDate address legalDescription description)

/-- One anchor row together with the heading capture in force when it is
processed (captures may be redefined at later heading rows). -/
structure ColumnStep where
  headings : Headings
  row : List Element
  anchor : Element
deriving DecidableEq

/-- Folds a sequence of anchor rows into the record map, starting from the
empty map (records accumulate across the entire document). -/
def columnFold (d : AddressData) (url scrapeDate : String)
    (steps : List ColumnStep) : List (String × DevApp) :=
  steps.foldl
    (fun apps s => processColumnAnchorRow d url scrapeDate s.headings s.row s.anchor apps)
    []

/-- Log message for a dropped record with a blank application number,
carrying the previously valid application number as context. -/
def blankAppNumMsg (prev : Option String) : String :=
  "Ignoring a development application because the application number was blank." ++
    (match prev with
    | none => ""
    | some p => "  The previous application number was " ++ p ++ ".")

/-- Log message for a dropped record with a blank address, carrying the
previously valid application number as context. -/
def blankAddressMsg (applicationNumber : String) (prev : Option String) : String :=
  "Ignoring development application " ++ applicationNumber ++
    " because the address was blank (the street name or suburb name is blank)." ++
    (match prev with
    | none => ""
    | some p => "  The previous application number was " ++ p ++ ".")

/-- The final filter of `src/scraper.ts` lines 434–446: walk the accumulated
records, drop any with a blank application number or blank address (logging
the previously valid application number as context), keep the rest in
order. -/
def filterDevAppsAux : Option String → List DevApp → List DevApp × List String
  | _, [] => ([], [])
  | prev, a :: rest =>
    if a.applicationNumber = "" then
      let p := filterDevAppsAux prev rest
      (p.1, blankAppNumMsg prev :: p.2)
    else if a.address = "" then
      let p := filterDevAppsAux prev rest
      (p.1, blankAddressMsg a.applicationNumber prev :: p.2)
    else
      let p := filterDevAppsAux (some a.applicationNumber) rest
      (a :: p.1, p.2)

/-- The final filter, started with no previous application number. -/
def filterDevApps (apps : List DevApp) : List DevApp × List String :=
  filterDevAppsAux none apps

/-- The full column-mode outcome for a document given its anchor-row steps:
fold all steps into the record map, take the records in insertion order
(`Object.values`), and apply the final filter. -/
def columnParseFinal (d : AddressData) (url scrapeDate : String)
    (steps : List ColumnStep) : List DevApp × List String :=
  filterDevApps ((columnFold d url scrapeDate steps).map Prod.snd)

/-! ## Helper lemmas -/

/-- Characters of a trimmed string come from the original string. -/
theorem mem_of_mem_jsTrimL {c : Char} {l : List Char} (h : c ∈ jsTrimL l) : c ∈ l := by
  unfold jsTrimL at h
  rw [List.mem_reverse] at h
  have h1 := (List.dropWhile_sublist (l := (l.dropWhile Char.isWhitespace).reverse)
    Char.isWhitespace).mem h
  rw [List.mem_reverse] at h1
  exact (List.dropWhile_sublist (l := l) Char.isWhitespace).mem h1

/-- Global replacement does not introduce a character that occurs in neither
the subject nor the replacement. -/
theorem mem_of_mem_replaceAllFuel {c : Char} {pat rep : List Char} :
    ∀ (fuel : Nat) (s : List Char), c ∈ replaceAllFuel pat rep fuel s → c ∈ s ∨ c ∈ rep := by
  intro fuel
  induction fuel with
  | zero => intro s h; exact Or.inl h
  | succ n ih =>
    intro s h
    match s with
    | [] => simp [replaceAllFuel] at h
    | x :: rest =>
      rw [replaceAllFuel] at h
      by_cases hp : pat ≠ [] ∧ pat.isPrefixOf (x :: rest)
      · rw [if_pos hp] at h
        rcases List.mem_append.mp h with h1 | h1
        · exact Or.inr h1
        · rcases ih _ h1 with h2 | h2
          · exact Or.inl (List.mem_cons_of_mem x (List.drop_subset _ _ h2))
          · exact Or.inr h2
      · rw [if_neg hp] at h
        rcases List.mem_cons.mp h with h1 | h1
        · exact Or.inl (h1 ▸ List.mem_cons_self x rest)
        · rcases ih _ h1 with h2 | h2
          · exact Or.inl (List.mem_cons_of_mem x h2)
          · exact Or.inr h2

/-- A string without a comma splits at no comma. -/
theorem splitAtLastComma_eq_none {l : List Char} (h : ',' ∉ l) :
    splitAtLastComma l = none := by
  induction l with
  | nil => rfl
  | cons c rest ih =>
    rw [splitAtLastComma, ih fun hm => h (List.mem_cons_of_mem c hm)]
    have hc : c ≠ ',' := fun hc => h (hc ▸ List.mem_cons_self c rest)
    simp [hc]

/-- The terrace substitutions never introduce a comma. -/
theorem tceReplace_no_comma {s : String} (h : ',' ∉ s.data) :
    ',' ∉ (tceReplace s).data := by
  unfold tceReplace replaceAll
  intro hmem
  have step : ∀ (t : List Char) (pat rep : String), ',' ∉ rep.data → ',' ∉ t →
      ',' ∉ replaceAllFuel pat.data rep.data t.length t := by
    intro t pat rep hrep ht hm
    rcases mem_of_mem_replaceAllFuel t.length t hm with h1 | h1
    · exact ht h1
    · exact hrep h1
  revert hmem
  refine step _ _ _ (by decide) (step _ _ _ (by decide) (step _ _ _ (by decide)
    (step _ _ _ (by decide) h)))

/-- Looking up after `setBinding` finds the new value exactly at the stored
key. -/
theorem lookup_setBinding (m : List (String × DevApp)) (k : String) (v : DevApp)
    (k0 : String) :
    (setBinding m k v).lookup k0 = if k0 = k then some v else m.lookup k0 := by
  induction m with
  | nil =>
    by_cases h : k0 = k
    · simp [setBinding, List.lookup, h]
    · have hb : (k0 == k) = false := beq_eq_false_iff_ne.mpr h
      simp [setBinding, List.lookup, hb, h]
  | cons kv rest ih =>
    match kv with
    | (k', v') =>
      rw [setBinding]
      by_cases h1 : k' = k
      · subst h1
        by_cases h2 : k0 = k'
        · simp [List.lookup, h2]
        · have hb : (k0 == k') = false := beq_eq_false_iff_ne.mpr h2
          simp [List.lookup, hb, h2]
      · rw [if_neg h1]
        by_cases h2 : k0 = k'
        · subst h2
          have hne : ¬ k0 = k := fun hc => h1 hc
          simp [List.lookup, hne]
        · have hb : (k0 == k') = false := beq_eq_false_iff_ne.mpr h2
          simp [List.lookup, hb, ih]

/-- Membership after `setBinding`: the pair was already present or is the new
binding. -/
theorem mem_setBinding {m : List (String × DevApp)} {k : String} {v : DevApp}
    {p : String × DevApp} (h : p ∈ setBinding m k v) : p ∈ m ∨ p = (k, v) := by
  induction m with
  | nil => simpa [setBinding] using h
  | cons kv rest ih =>
    match kv with
    | (k', v') =>
      rw [setBinding] at h
      by_cases h1 : k' = k
      · rw [if_pos h1] at h
        rcases List.mem_cons.mp h with h2 | h2
        · exact Or.inr h2
        · exact Or.inl (List.mem_cons_of_mem _ h2)
      · rw [if_neg h1] at h
        rcases List.mem_cons.mp h with h2 | h2
        · exact Or.inl (h2 ▸ List.mem_cons_self _ _)
        · rcases ih h2 with h3 | h3
          · exact Or.inl (List.mem_cons_of_mem _ h3)
          · exact Or.inr h3

/-- A successful lookup exposes a member pair. -/
theorem lookup_mem {m : List (String × DevApp)} {k : String} {v : DevApp}
    (h : m.lookup k = some v) : (k, v) ∈ m := by
  induction m with
  | nil => simp [List.lookup] at h
  | cons kv rest ih =>
    match kv with
    | (k', v') =>
      rw [List.lookup] at h
      by_cases h1 : k = k'
      · have hb : (k == k') = true := beq_iff_eq.mpr h1
        rw [hb] at h
        obtain rfl : v' = v := by injection h
        subst h1
        exact List.mem_cons_self _ _
      · have hb : (k == k') = false := beq_eq_false_iff_ne.mpr h1
        rw [hb] at h
        exact List.mem_cons_of_mem _ (ih h)

/-- The description produced by the guarded merge: the new text when the
description heading is captured and the text non-empty, the base record's
description otherwise. -/
theorem mergeFields_description (h : Headings) (base : DevApp)
    (receivedDate : Option String) (address legalDescription description : String) :
    (mergeFields h base receivedDate address legalDescription description).description =
      if h.description.isSome ∧ description ≠ "" then description
      else base.description := by
  unfold mergeFields
  split <;> split <;> split <;> split <;> rfl

/-- The records kept by the final filter are exactly those with a non-blank
application number and a non-blank address, in order. -/
theorem filterDevAppsAux_records (apps : List DevApp) :
    ∀ prev, (filterDevAppsAux prev apps).1 =
      apps.filter fun a => !(a.applicationNumber == "") && !(a.address == "") := by
  induction apps with
  | nil => intro prev; rfl
  | cons a rest ih =>
    intro prev
    rw [filterDevAppsAux]
    by_cases h1 : a.applicationNumber = ""
    · simp [h1, ih, List.filter]
    · by_cases h2 : a.address = ""
      · simp [h1, h2, ih, List.filter]
      · have hb1 : (a.applicationNumber == "") = false := beq_eq_false_iff_ne.mpr h1
        have hb2 : (a.address == "") = false := beq_eq_false_iff_ne.mpr h2
        simp [h1, h2, hb1, hb2, ih, List.filter]

/-! ## Claim C4: structure of `formatStreetName` -/

/-- The exact-match loop is the first-window search described by the spec. -/
theorem exactLoop_eq_findSome (d : AddressData) (tokens : List String) :
    ∀ l : List Nat, exactLoop d tokens l = l.findSome? fun index =>
      if d.streetNames.contains (joinWith " " (lastN tokens index)) then
        some (joinWith " " tokens)
      else none := by
  intro l
  induction l with
  | nil => rfl
  | cons i rest ih =>
    rw [exactLoop, List.findSome?_cons]
    by_cases h : joinWith " " (lastN tokens i) ∈ d.streetNames <;> simp [h, ih]

/-- The fuzzy-match loop is the first-window fuzzy search described by the
spec, with threshold `7 - windowSize`. -/
theorem fuzzyLoop_eq_findSome (d : AddressData) (tokens : List String) :
    ∀ l : List Nat, fuzzyLoop d tokens l = l.findSome? fun index =>
      (didYouMean (joinWith " " (lastN tokens index)) d.streetNames (7 - index)).map
        fun m => jsTrim (joinWith " " (dropLastN tokens index) ++ " " ++ m) := by
  intro l
  induction l with
  | nil => rfl
  | cons i rest ih =>
    rw [fuzzyLoop, List.findSome?_cons]
    cases h : didYouMean (joinWith " " (lastN tokens i)) d.streetNames (7 - i) <;>
      simp [h, ih]

/-- C4: `formatStreetName` first tries exact street-dictionary matches of the
trailing token window for window sizes 6 down to 2 (longest first, full token
sequence returned with prefix tokens preserved); only when no exact window
matches does it retry the same shrinking windows with fuzzy matching at
edit-distance threshold `7 - windowSize` with first-closest-match tie-break;
when neither pass matches any window it returns the input text unchanged. -/
theorem formatStreetName_matches_spec (d : AddressData) (text : String) :
    formatStreetName d text = streetNameFormatSpec d text := by
  have key : ∀ (A B : Option String) (t : String),
      (match A with
      | some r => r
      | none =>
        match B with
        | some r => r
        | none => t) = (A.orElse fun _ => B).getD t := by
    intro A B t
    cases A <;> cases B <;> rfl
  simp only [formatStreetName, streetNameFormatSpec]
  rw [exactLoop_eq_findSome, fuzzyLoop_eq_findSome, key]

/-! ## Claim C5: `formatAddress` on comma-free input -/

/-- C5 counterexample: a comma-free input containing a terrace abbreviation
is not returned trimmed-but-unchanged — the fixed substitutions are applied
before the comma check. -/
theorem formatAddress_no_comma_changes_input :
    (',' ∉ " 10 SMITH TCE NTH ".data) ∧
    jsTrim " 10 SMITH TCE NTH " = "10 SMITH TCE NTH" ∧
    formatAddress ⟨[], [], []⟩ " 10 SMITH TCE NTH " = "10 SMITH TERRACE NORTH" ∧
    ("10 SMITH TERRACE NORTH" : String) ≠ "10 SMITH TCE NTH" := by
  refine ⟨by decide, by decide, ?_, by decide⟩
  decide

/-- C5 (amended): on a comma-free input, `formatAddress` returns the trimmed
input with the four terrace-direction substitutions applied (in particular,
the trimmed input unchanged whenever no substitution pattern occurs). -/
theorem formatAddress_no_comma_behavior (d : AddressData) (s : String)
    (h : ',' ∉ s.data) :
    formatAddress d s = tceReplace (jsTrim s) := by
  have htrim : ',' ∉ (jsTrim s).data := fun hm => h (mem_of_mem_jsTrimL hm)
  have hrep : ',' ∉ (tceReplace (jsTrim s)).data := tceReplace_no_comma htrim
  simp only [formatAddress]
  rw [splitAtLastComma_eq_none hrep]

/-- C5 witness: the amended statement at a concrete comma-free input. -/
theorem formatAddress_no_comma_behavior_witness :
    formatAddress ⟨[], [], []⟩ "NO COMMA HERE" = tceReplace (jsTrim "NO COMMA HERE") :=
  formatAddress_no_comma_behavior ⟨[], [], []⟩ "NO COMMA HERE" (by decide)

/-! ## Claim C6: suburb/hundred disentangling -/

/-- C6 counterexample: in `"EMU FLAT/hd CLARE"` the second part begins with
the case-insensitive prefix `"HD "`, yet the code (whose branch test
`/^HD /` is case-sensitive) makes it the suburb and the first part the
hundred name, contradicting the claim. -/
theorem splitSuburbHundred_ci_mismatch :
    hdStartCI "hd CLARE" = true ∧
    hdStartCI "EMU FLAT" = false ∧
    splitSuburbHundred "EMU FLAT/hd CLARE" = ("CLARE", "EMU FLAT") := by
  refine ⟨by decide, by decide, ?_⟩
  decide

/-- C6 (amended): with exactly two `/`-separated parts, the branch test is a
case-sensitive check of the trimmed second part only: when it begins with
`"HD "` it becomes the hundred name and the first part the suburb, otherwise
the first part becomes the hundred name and the second the suburb; a leading
case-insensitive `"HD "` is then stripped from both fields.  (So a part
beginning with exact-case `"HD "` on either side does become the hundred
name when the other side carries no such prefix, but a lower-case `"hd "` on
the right is treated as the suburb.) -/
theorem splitSuburbHundred_branching (s t0 t1 : String)
    (hsplit : jsSplit s '/' = [t0, t1]) :
    (jsStartsWith (jsTrim t1) "HD " = true →
      splitSuburbHundred s = (stripHdStart (jsTrim t0), stripHdStart (jsTrim t1))) ∧
    (jsStartsWith (jsTrim t1) "HD " = false →
      splitSuburbHundred s = (stripHdStart (jsTrim t1), stripHdStart (jsTrim t0))) := by
  constructor <;> intro hts <;>
    simp [splitSuburbHundred, hsplit, hts, List.getD]

/-- C6 witness: the amended branching at concrete inputs covering both an
`"HD "`-second-part split and an `"HD "`-first-part split. -/
theorem splitSuburbHundred_branching_witness :
    splitSuburbHundred "EMU FLAT/HD CLARE" = ("EMU FLAT", "CLARE") ∧
    splitSuburbHundred "HD CLARE/EMU FLAT" = ("EMU FLAT", "CLARE") := by
  constructor
  · have h := (splitSuburbHundred_branching "EMU FLAT/HD CLARE" "EMU FLAT" "HD CLARE"
      (by decide)).1 (by decide)
    exact h.trans (by decide)
  · have h := (splitSuburbHundred_branching "HD CLARE/EMU FLAT" "HD CLARE" "EMU FLAT"
      (by decide)).2 (by decide)
    exact h.trans (by decide)

/-! ## Claim C7: grid-mode cell ownership -/

/-- C7: an element is assigned to the first cell, in the scanned cell order,
whose containment percentage of the element strictly exceeds 50, and to no
cell when none qualifies; in particular an element none of whose containment
percentages exceeds 50 (such as an exact 50/50 split) is assigned to no
cell, and a zero-area element (containment 0 everywhere) is assigned to no
cell. -/
theorem cellOwnership_spec (e : Element) (cells : List Cell) :
    (getArea e.toRect = 0 → findOwnerCell e cells = none) ∧
    ((∀ c ∈ cells, ¬ getPercentageOfElementInCell e.toRect c.toRect > 50) →
      findOwnerCell e cells = none) ∧
    (∀ pre c post, cells = pre ++ c :: post →
      getPercentageOfElementInCell e.toRect c.toRect > 50 →
      (∀ c' ∈ pre, ¬ getPercentageOfElementInCell e.toRect c'.toRect > 50) →
      findOwnerCell e cells = some c) := by
  refine ⟨?_, ?_, ?_⟩
  · intro h0
    apply List.find?_eq_none.mpr
    intro c _
    have hz : getPercentageOfElementInCell e.toRect c.toRect = 0 := by
      simp only [getPercentageOfElementInCell]
      simp [h0]
    simp [hz]
  · intro hall
    apply List.find?_eq_none.mpr
    intro c hc
    simpa using hall c hc
  · intro pre c post hcells hpct hpre
    subst hcells
    unfold findOwnerCell
    rw [List.find?_append]
    have h1 : List.find?
        (fun cell => decide (getPercentageOfElementInCell e.toRect cell.toRect > 50)) pre =
        none :=
      List.find?_eq_none.mpr fun x hx => by simpa using hpre x hx
    rw [h1, List.find?_cons_of_pos _ (by simpa using hpct)]
    rfl

/-- Concrete fixtures for the ownership witness: an element split exactly
50/50 between two adjacent cells, and a zero-width element. -/
def eHalf : Element := ⟨⟨0, 0, 2, 1⟩, "t"⟩

/-- Left cell of the 50/50 fixture. -/
def cellL : Cell := ⟨⟨0, 0, 1, 1⟩, []⟩

/-- Right cell of the 50/50 fixture. -/
def cellR : Cell := ⟨⟨1, 0, 1, 1⟩, []⟩

/-- A zero-area element. -/
def eZero : Element := ⟨⟨0, 0, 0, 1⟩, "z"⟩

/-- C7 witness: the 50/50-split element and the zero-area element are each
assigned to no cell. -/
theorem cellOwnership_spec_witness :
    findOwnerCell eHalf [cellL, cellR] = none ∧
    findOwnerCell eZero [cellL, cellR] = none := by
  constructor
  · apply (cellOwnership_spec eHalf [cellL, cellR]).2.1
    intro c hc
    rcases List.mem_cons.mp hc with h | h
    · subst h
      norm_num [getPercentageOfElementInCell, intersect, getArea, eHalf, cellL,
        min_def, max_def]
    · rcases List.mem_cons.mp h with h2 | h2
      · subst h2
        norm_num [getPercentageOfElementInCell, intersect, getArea, eHalf, cellR,
          min_def, max_def]
      · simp at h2
  · apply (cellOwnership_spec eZero [cellL, cellR]).1
    norm_num [getArea, eZero]

/-! ## Claim C8: horizontal overlap percentage -/

/-- C8: `getHorizontalOverlapPercentage` is `0` when either argument is
`undefined`; it lies in `[0, 100]` for rectangles with non-negative widths;
it is `0` when either width is zero or the x-projections do not overlap; and
it is `100` when the two x-projections are identical with positive width. -/
theorem horizontalOverlap_spec :
    (∀ r2, getHorizontalOverlapPercentage none r2 = 0) ∧
    (∀ r1, getHorizontalOverlapPercentage r1 none = 0) ∧
    (∀ a b : Rect, 0 ≤ a.width → 0 ≤ b.width →
      0 ≤ getHorizontalOverlapPercentage (some a) (some b) ∧
      getHorizontalOverlapPercentage (some a) (some b) ≤ 100) ∧
    (∀ a b : Rect,
      a.width = 0 ∨ b.width = 0 ∨ a.x ≥ b.x + b.width ∨ a.x + a.width ≤ b.x →
      getHorizontalOverlapPercentage (some a) (some b) = 0) ∧
    (∀ a b : Rect, a.x = b.x → a.width = b.width → 0 < a.width →
      getHorizontalOverlapPercentage (some a) (some b) = 100) := by
  refine ⟨fun r2 => rfl, fun r1 => by cases r1 <;> rfl, ?_, ?_, ?_⟩
  · intro a b hwa hwb
    simp only [getHorizontalOverlapPercentage]
    split
    · norm_num
    · rename_i hguard
      push_neg at hguard
      obtain ⟨h1, h2, h3, h4⟩ := hguard
      have hwa0 : 0 < a.width := lt_of_le_of_ne hwa (Ne.symm h3)
      have hwb0 : 0 < b.width := lt_of_le_of_ne hwb (Ne.symm h4)
      have hI : 0 < min (a.x + a.width) (b.x + b.width) - max a.x b.x := by
        rw [sub_pos, lt_min_iff]
        constructor <;> rw [max_lt_iff] <;> constructor <;> linarith
      have hU : 0 < max (a.x + a.width) (b.x + b.width) - min a.x b.x := by
        have hl := le_max_left (a.x + a.width) (b.x + b.width)
        have hm := min_le_left a.x b.x
        linarith
      have hIU : min (a.x + a.width) (b.x + b.width) - max a.x b.x ≤
          max (a.x + a.width) (b.x + b.width) - min a.x b.x := by
        have h5 := min_le_max (a := a.x + a.width) (b := b.x + b.width)
        have h6 := min_le_max (a := a.x) (b := b.x)
        linarith
      constructor
      · exact div_nonneg (by linarith) hU.le
      · rw [div_le_iff₀ hU]
        linarith
  · intro a b h
    simp only [getHorizontalOverlapPercentage]
    rw [if_pos (by tauto)]
  · intro a b hx hw hpos
    simp only [getHorizontalOverlapPercentage]
    rw [← hx, ← hw]
    rw [if_neg (by push_neg; refine ⟨by linarith, by linarith, hpos.ne', hpos.ne'⟩)]
    rw [min_self, max_self, min_self, max_self, add_sub_cancel_left]
    rw [mul_comm, mul_div_assoc, div_self hpos.ne', mul_one]

/-- C8 witness: identical x-projections give 100; a generic pair with
non-negative widths stays in range; a zero-width rectangle gives 0. -/
theorem horizontalOverlap_spec_witness :
    getHorizontalOverlapPercentage (some ⟨0, 0, 10, 1⟩) (some ⟨0, 5, 10, 2⟩) = 100 ∧
    (0 ≤ getHorizontalOverlapPercentage (some ⟨0, 0, 10, 1⟩) (some ⟨3, 7, 4, 2⟩) ∧
      getHorizontalOverlapPercentage (some ⟨0, 0, 10, 1⟩) (some ⟨3, 7, 4, 2⟩) ≤ 100) ∧
    getHorizontalOverlapPercentage (some ⟨3, 0, 0, 1⟩) (some ⟨0, 0, 10, 1⟩) = 0 :=
  ⟨horizontalOverlap_spec.2.2.2.2 ⟨0, 0, 10, 1⟩ ⟨0, 5, 10, 2⟩ rfl rfl (by norm_num),
    horizontalOverlap_spec.2.2.1 ⟨0, 0, 10, 1⟩ ⟨3, 7, 4, 2⟩ (by norm_num) (by norm_num),
    horizontalOverlap_spec.2.2.2.1 ⟨3, 0, 0, 1⟩ ⟨0, 0, 10, 1⟩ (Or.inl rfl)⟩

/-! ## Claim C2: the final filter excludes blank records -/

/-- C2: after all anchor rows of a document are folded, the final output
drops exactly the records with a blank application number or blank address
(keeping the rest in order), so every record in the final output has a
non-blank application number and a non-blank address. -/
theorem columnFinal_excludes_blank (d : AddressData) (url scrapeDate : String)
    (steps : List ColumnStep) :
    (columnParseFinal d url scrapeDate steps).1 =
      ((columnFold d url scrapeDate steps).map Prod.snd).filter
        (fun a => !(a.applicationNumber == "") && !(a.address == "")) ∧
    ∀ r ∈ (columnParseFinal d url scrapeDate steps).1,
      r.applicationNumber ≠ "" ∧ r.address ≠ "" := by
  have hrec := filterDevAppsAux_records
    ((columnFold d url scrapeDate steps).map Prod.snd) none
  refine ⟨hrec, ?_⟩
  intro r hr
  rw [show (columnParseFinal d url scrapeDate steps).1 =
      (filterDevAppsAux none ((columnFold d url scrapeDate steps).map Prod.snd)).1
    from rfl, hrec] at hr
  have := List.of_mem_filter hr
  constructor
  · intro hc
    simp [hc] at this
  · intro hc
    simp [hc] at this

/-! ## Claim C9: grid-mode application-number validation -/

/-- C9: a grid row yields no record unless its application-number cell both
exists and has text matched by the pattern `[0-9]+\/[0-9]+\/[0-9]+`. -/
theorem gridRow_appNum_validation (row : List Cell)
    (applicationNumberHeadingCell : Cell)
    (receivedDateHeadingCell legalDescriptionHeadingCell : Option Cell)
    (streetNameHeadingCell suburbNameHeadingCell : Cell)
    (descriptionHeadingCell : Option Cell) (url scrapeDate : String)
    (d : AddressData) :
    (findFieldCell row (some applicationNumberHeadingCell) = none →
      (gridProcessRow row applicationNumberHeadingCell receivedDateHeadingCell
        legalDescriptionHeadingCell streetNameHeadingCell suburbNameHeadingCell
        descriptionHeadingCell url scrapeDate d).1 = none) ∧
    (∀ c, findFieldCell row (some applicationNumberHeadingCell) = some c →
      appNumTest (cellTextNoSep c) = false →
      (gridProcessRow row applicationNumberHeadingCell receivedDateHeadingCell
        legalDescriptionHeadingCell streetNameHeadingCell suburbNameHeadingCell
        descriptionHeadingCell url scrapeDate d).1 = none) := by
  constructor
  · intro hnone
    simp only [gridProcessRow, hnone]
  · intro c hfound htest
    simp only [gridProcessRow, hfound, htest]
    simp

/-! ## Concrete fixtures shared by several witnesses -/

/-- Empty reference dictionaries. -/
def emptyData : AddressData := ⟨[], [], []⟩

/-- A captured street-name heading element. -/
def hStreetE : Element := ⟨⟨0, 0, 10, 1⟩, "St Name"⟩

/-- A captured suburb heading element. -/
def hSuburbE : Element := ⟨⟨20, 0, 10, 1⟩, "Suburb"⟩

/-- A heading capture defining only the street-name and suburb columns. -/
def h0 : Headings := ⟨none, none, none, some hStreetE, none, some hSuburbE, none⟩

/-- A street-name row element under the street heading. -/
def eStreet : Element := ⟨⟨0, 10, 10, 1⟩, "Main Rd"⟩

/-- A suburb row element under the suburb heading. -/
def eSuburb : Element := ⟨⟨20, 10, 10, 1⟩, "Someton"⟩

/-- An anchor element carrying an application number. -/
def anchor1 : Element := ⟨⟨0, 10, 5, 1⟩, "371/002/17"⟩

/-- With no captured heading a field never collects elements. -/
theorem filterByHeading_none (row : List Element) : filterByHeading none row = [] := by
  induction row with
  | nil => rfl
  | cons e rest ih =>
    simp only [filterByHeading, List.filter] at ih ⊢
    simp [getHorizontalOverlapPercentage, ih]

/-- The street filter of the fixture row selects exactly the street element. -/
theorem c1FilterStreet : filterByHeading (some hStreetE) [eStreet, eSuburb] = [eStreet] := by
  norm_num [filterByHeading, List.filter, getHorizontalOverlapPercentage, hStreetE,
    eStreet, eSuburb, min_def, max_def]

/-- The suburb filter of the fixture row selects exactly the suburb element. -/
theorem c1FilterSuburb : filterByHeading (some hSuburbE) [eStreet, eSuburb] = [eSuburb] := by
  norm_num [filterByHeading, List.filter, getHorizontalOverlapPercentage, hSuburbE,
    eStreet, eSuburb, min_def, max_def]

/-! ## Claim C1: column-mode merge and field regression -/

/-- The record map after one fixture anchor row with street and suburb text. -/
def c1Step1 : List (String × DevApp) :=
  processColumnAnchorRow emptyData "u" "2019-03-01" h0 [eStreet, eSuburb] anchor1 []

/-- The record map after a second anchor row with the same application number
but no member elements at all. -/
def c1Step2 : List (String × DevApp) :=
  processColumnAnchorRow emptyData "u" "2019-03-01" h0 [] anchor1 c1Step1

/-- C1 counterexample: two anchor rows sharing one application number under
the same heading capture, where the first merge step stores a non-empty
address and the second overwrites it with the empty string — the address
field regresses from non-empty to empty, because the merge guard checks only
that a heading is captured, not that the new value is non-empty. -/
theorem columnMerge_address_regression :
    ((c1Step1.lookup "371/002/17").map DevApp.address = some "MAIN RD, SOMETON") ∧
    ((c1Step2.lookup "371/002/17").map DevApp.address = some "") := by
  have h1 : c1Step1 =
      processColumnAnchorRow emptyData "u" "2019-03-01" h0 [eStreet, eSuburb] anchor1 [] := rfl
  rw [h1]
  simp only [processColumnAnchorRow, h0, c1FilterStreet, c1FilterSuburb,
    filterByHeading_none, c1Step2, h1]
  decide

/-- C1 (amended): in the column-mode merge only the description field is
guarded against overwriting by an empty value; hence the description of a
record never regresses from non-empty to empty across merge steps (while
receivedDate, address and legalDescription are overwritten whenever their
headings are captured, even by empty values, as the counterexample shows). -/
theorem columnMerge_description_monotone (d : AddressData) (url scrapeDate : String)
    (h : Headings) (row : List Element) (anchor : Element)
    (apps : List (String × DevApp)) (k : String) (r r' : DevApp)
    (hk : apps.lookup k = some r)
    (hk' : (processColumnAnchorRow d url scrapeDate h row anchor apps).lookup k = some r')
    (hne : r.description ≠ "") : r'.description ≠ "" := by
  simp only [processColumnAnchorRow] at hk'
  rw [lookup_setBinding] at hk'
  by_cases hkey : k = jsTrim (stripWs anchor.text)
  · rw [if_pos hkey] at hk'
    obtain rfl : _ = r' := by injection hk'
    rw [mergeFields_description]
    have hDne : (if joinElems (filterByHeading h.description row) = "" then
        "No Description Provided"
      else joinElems (filterByHeading h.description row)) ≠ "" := by
      split
      · decide
      · assumption
    by_cases hd : h.description.isSome = true
    · rw [if_pos ⟨hd, hDne⟩]
      exact hDne
    · rw [if_neg fun hc => hd hc.1]
      rw [← hkey, hk]
      simpa using hne
  · rw [if_neg hkey, hk] at hk'
    obtain rfl : r = r' := by injection hk'
    exact hne

/-- A record with a non-empty description already stored in the map. -/
def rec0 : DevApp := ⟨"371/002/17", "", "Shed", "u", CommentUrl, "2019-03-01", "", ""⟩

/-- A map holding `rec0`. -/
def apps0 : List (String × DevApp) := [("371/002/17", rec0)]

/-- C1 witness: a merge step with no captured headings leaves the stored
record's non-empty description non-empty. -/
theorem columnMerge_description_monotone_witness :
    ((processColumnAnchorRow emptyData "u" "2019-03-01" Headings.empty [] anchor1
        apps0).lookup "371/002/17" = some rec0) ∧
    rec0.description ≠ "" := by
  have hstep : (processColumnAnchorRow emptyData "u" "2019-03-01" Headings.empty [] anchor1
      apps0).lookup "371/002/17" = some rec0 := by decide
  exact ⟨hstep,
    columnMerge_description_monotone emptyData "u" "2019-03-01" Headings.empty [] anchor1
      apps0 "371/002/17" rec0 rec0 (by decide) hstep (by decide)⟩

/-- One-step column document fixture whose single record survives the final
filter. -/
def c2Steps : List ColumnStep := [⟨h0, [eStreet, eSuburb], anchor1⟩]

/-- The record produced by the `c2Steps` fixture. -/
def c2Rec : DevApp :=
  ⟨"371/002/17", "MAIN RD, SOMETON", "No Description Provided", "u", CommentUrl,
    "2019-03-01", "", ""⟩

/-- C2 witness: a concrete surviving record has a non-blank application
number and address. -/
theorem columnFinal_excludes_blank_witness :
    c2Rec.applicationNumber ≠ "" ∧ c2Rec.address ≠ "" := by
  have hfold : columnFold emptyData "u" "2019-03-01" c2Steps = [("371/002/17", c2Rec)] := by
    simp only [columnFold, List.foldl, c2Steps, processColumnAnchorRow, h0,
      c1FilterStreet, c1FilterSuburb, filterByHeading_none]
    decide
  have hmem : c2Rec ∈ (columnParseFinal emptyData "u" "2019-03-01" c2Steps).1 := by
    simp only [columnParseFinal, hfold]
    decide
  exact (columnFinal_excludes_blank emptyData "u" "2019-03-01" c2Steps).2 c2Rec hmem

/-- A grid application-number heading cell. -/
def appHead : Cell := ⟨⟨0, 0, 10, 1⟩, [⟨⟨0, 0, 10, 1⟩, "D/A Number"⟩]⟩

/-- A grid row cell aligned under the application-number heading but whose
text fails the `digits/digits/digits` pattern. -/
def appCellBad : Cell := ⟨⟨0, 10, 10, 1⟩, [⟨⟨0, 10, 5, 1⟩, "ABC"⟩]⟩

/-- A street-name heading cell for the grid fixtures. -/
def gridStreetHead : Cell := ⟨⟨20, 0, 10, 1⟩, []⟩

/-- A suburb heading cell for the grid fixtures. -/
def gridSuburbHead : Cell := ⟨⟨40, 0, 10, 1⟩, []⟩

/-- C9 witness: a row whose application-number cell text is `"ABC"` is
rejected. -/
theorem gridRow_appNum_validation_witness :
    (gridProcessRow [appCellBad] appHead none none gridStreetHead gridSuburbHead none
      "u" "2019-03-01" emptyData).1 = none := by
  have hfind : findFieldCell [appCellBad] (some appHead) = some appCellBad := by
    norm_num [findFieldCell, List.find?, getHorizontalOverlapPercentage, appCellBad,
      appHead, min_def, max_def]
  have htest : appNumTest (cellTextNoSep appCellBad) = false := by decide
  exact (gridRow_appNum_validation [appCellBad] appHead none none gridStreetHead
    gridSuburbHead none "u" "2019-03-01" emptyData).2 appCellBad hfind htest

/-! ## Claim C3: grid-mode page skipping -/

/-- C3: when a mandatory heading (application number, street name,
suburb/town) is not found among the page's cells, or when no rows were
reconstructed, the page contributes zero records and its single log line is
the appropriate skip message carrying the page's element dump; the page
function returns normally (total function, no exception). -/
theorem gridPage_skip_on_missing_structure (cells : List Cell)
    (elements : List Element) (url scrapeDate : String) (d : AddressData)
    (h : groupRows cells = [] ∨ findHeadingCell cells "d/anumber" = none ∨
      findHeadingCell cells "streetname" = none ∨ findHeadingCell cells "town" = none) :
    (gridPageCore cells elements url scrapeDate d).1 = [] ∧
    ((gridPageCore cells elements url scrapeDate d).2 =
        [noRowsMsg (elementSummary elements)] ∨
      (gridPageCore cells elements url scrapeDate d).2 =
        [noAppNumHeadingMsg (elementSummary elements)] ∨
      (gridPageCore cells elements url scrapeDate d).2 =
        [noStreetHeadingMsg (elementSummary elements)] ∨
      (gridPageCore cells elements url scrapeDate d).2 =
        [noSuburbHeadingMsg (elementSummary elements)]) := by
  have hmain : gridPageCore cells elements url scrapeDate d =
      ([], [noRowsMsg (elementSummary elements)]) ∨
      gridPageCore cells elements url scrapeDate d =
      ([], [noAppNumHeadingMsg (elementSummary elements)]) ∨
      gridPageCore cells elements url scrapeDate d =
      ([], [noStreetHeadingMsg (elementSummary elements)]) ∨
      gridPageCore cells elements url scrapeDate d =
      ([], [noSuburbHeadingMsg (elementSummary elements)]) := by
    by_cases hrows : groupRows cells = []
    · have hbe : (groupRows cells).isEmpty = true := by rw [hrows]; rfl
      left
      simp only [gridPageCore]
      rw [if_pos hbe]
    · have hbe : (groupRows cells).isEmpty = false := by
        cases hgc : groupRows cells with
        | nil => exact absurd hgc hrows
        | cons a l => rfl
      rcases h with h | h | h | h
      · exact absurd h hrows
      · right; left
        simp only [gridPageCore]
        rw [if_neg (by simp [hbe]), h]
      · cases happ : findHeadingCell cells "d/anumber" with
        | none =>
          right; left
          simp only [gridPageCore]
          rw [if_neg (by simp [hbe]), happ]
        | some appH =>
          right; right; left
          simp only [gridPageCore]
          rw [if_neg (by simp [hbe]), happ, h]
      · cases happ : findHeadingCell cells "d/anumber" with
        | none =>
          right; left
          simp only [gridPageCore]
          rw [if_neg (by simp [hbe]), happ]
        | some appH =>
          cases hst : findHeadingCell cells "streetname" with
          | none =>
            right; right; left
            simp only [gridPageCore]
            rw [if_neg (by simp [hbe]), happ, hst]
          | some stH =>
            right; right; right
            simp only [gridPageCore]
            rw [if_neg (by simp [hbe]), happ, hst, h]
  rcases hmain with hm | hm | hm | hm <;> rw [hm]
  exacts [⟨rfl, Or.inl rfl⟩, ⟨rfl, Or.inr (Or.inl rfl)⟩,
    ⟨rfl, Or.inr (Or.inr (Or.inl rfl))⟩, ⟨rfl, Or.inr (Or.inr (Or.inr rfl))⟩]

/-- A grid cell whose element is not any heading. -/
def c3Cell : Cell := ⟨⟨0, 0, 10, 1⟩, [⟨⟨0, 0, 10, 1⟩, "Received"⟩]⟩

/-- A page element for the dump of the C3 witness. -/
def c3Elem : Element := ⟨⟨0, 0, 1, 1⟩, "x"⟩

/-- C3 witness: a page whose cells carry no application-number heading
contributes zero records and logs one of the skip messages with the
element dump. -/
theorem gridPage_skip_witness :
    (gridPageCore [c3Cell] [c3Elem] "u" "2019-03-01" emptyData).1 = [] ∧
    ((gridPageCore [c3Cell] [c3Elem] "u" "2019-03-01" emptyData).2 =
        [noRowsMsg (elementSummary [c3Elem])] ∨
      (gridPageCore [c3Cell] [c3Elem] "u" "2019-03-01" emptyData).2 =
        [noAppNumHeadingMsg (elementSummary [c3Elem])] ∨
      (gridPageCore [c3Cell] [c3Elem] "u" "2019-03-01" emptyData).2 =
        [noStreetHeadingMsg (elementSummary [c3Elem])] ∨
      (gridPageCore [c3Cell] [c3Elem] "u" "2019-03-01" emptyData).2 =
        [noSuburbHeadingMsg (elementSummary [c3Elem])]) :=
  gridPage_skip_on_missing_structure [c3Cell] [c3Elem] "u" "2019-03-01" emptyData
    (Or.inr (Or.inl (by decide)))

/-! ## Claim C10: descriptions are never blank -/

/-- One column-mode merge step keeps every stored description non-empty:
new records start at the fixed default, merges only ever store a non-empty
(or defaulted) description. -/
theorem processStep_desc (d : AddressData) (url scrapeDate : String)
    (h : Headings) (row : List Element) (anchor : Element)
    (apps : List (String × DevApp))
    (hinv : ∀ kv ∈ apps, kv.2.description ≠ "") :
    ∀ kv ∈ processColumnAnchorRow d url scrapeDate h row anchor apps,
      kv.2.description ≠ "" := by
  intro kv hkv
  simp only [processColumnAnchorRow] at hkv
  rcases mem_setBinding hkv with hin | heq
  · exact hinv kv hin
  · rw [heq]
    rw [mergeFields_description]
    have hDne : (if joinElems (filterByHeading h.description row) = "" then
        "No Description Provided"
      else joinElems (filterByHeading h.description row)) ≠ "" := by
      split
      · decide
      · assumption
    by_cases hd : h.description.isSome = true
    · rw [if_pos ⟨hd, hDne⟩]
      exact hDne
    · rw [if_neg fun hc => hd hc.1]
      cases hl : apps.lookup (jsTrim (stripWs anchor.text)) with
      | some rb =>
        exact hinv (jsTrim (stripWs anchor.text), rb) (lookup_mem hl)
      | none =>
        intro hc
        have hc2 : ("No Description Provided" : String) = "" := hc
        exact absurd hc2 (by decide)

/-- Folding any sequence of anchor rows preserves the non-empty-description
invariant of the record map. -/
theorem foldSteps_desc (d : AddressData) (url scrapeDate : String) :
    ∀ (steps : List ColumnStep) (apps : List (String × DevApp)),
      (∀ kv ∈ apps, kv.2.description ≠ "") →
      ∀ kv ∈ steps.foldl
        (fun m s => processColumnAnchorRow d url scrapeDate s.headings s.row s.anchor m)
        apps, kv.2.description ≠ "" := by
  intro steps
  induction steps with
  | nil => intro apps hinv kv hkv; exact hinv kv hkv
  | cons s rest ih =>
    intro apps hinv kv hkv
    exact ih (processColumnAnchorRow d url scrapeDate s.headings s.row s.anchor apps)
      (processStep_desc d url scrapeDate s.headings s.row s.anchor apps hinv) kv hkv

/-- C10: every record emitted by either strategy has a non-empty
description; when no description text is available the description is the
fixed default `"No Description Provided"` (grid mode shown for a missing
description cell; column mode initialises new records with the default and
only ever overwrites it by non-empty text). -/
theorem description_never_blank :
    (∀ (row : List Cell) (appH : Cell) (recH legalH : Option Cell)
      (stH subH : Cell) (deH : Option Cell) (url sd : String) (d : AddressData)
      (r : DevApp),
      (gridProcessRow row appH recH legalH stH subH deH url sd d).1 = some r →
      r.description ≠ "") ∧
    (∀ (d : AddressData) (url sd : String) (steps : List ColumnStep)
      (kv : String × DevApp), kv ∈ columnFold d url sd steps →
      kv.2.description ≠ "") ∧
    (∀ (row : List Cell) (appH : Cell) (recH legalH : Option Cell)
      (stH subH : Cell) (deH : Option Cell) (url sd : String) (d : AddressData)
      (r : DevApp),
      (gridProcessRow row appH recH legalH stH subH deH url sd d).1 = some r →
      findFieldCell row deH = none →
      r.description = "No Description Provided") := by
  refine ⟨?_, ?_, ?_⟩
  · intro row appH recH legalH stH subH deH url sd d r hrow
    simp only [gridProcessRow] at hrow
    split at hrow
    · simp at hrow
    · rename_i appCell happ
      by_cases htest : appNumTest (cellTextNoSep appCell) = false
      · rw [if_pos (by simpa using htest)] at hrow
        simp at hrow
      · rw [if_neg (by simpa using htest)] at hrow
        split at hrow
        · simp at hrow
        · split at hrow
          · simp at hrow
          · split at hrow
            · simp at hrow
            · split at hrow
              · simp at hrow
              · split at hrow
                · simp at hrow
                · dsimp only at hrow
                  rw [Option.some.injEq] at hrow
                  subst hrow
                  dsimp only
                  split
                  · decide
                  · assumption
  · intro d url sd steps kv hkv
    exact foldSteps_desc d url sd steps [] (by intro kv h; simp at h) kv hkv
  · intro row appH recH legalH stH subH deH url sd d r hrow hdesc
    simp only [gridProcessRow, hdesc] at hrow
    split at hrow
    · simp at hrow
    · rename_i appCell happ
      by_cases htest : appNumTest (cellTextNoSep appCell) = false
      · rw [if_pos (by simpa using htest)] at hrow
        simp at hrow
      · rw [if_neg (by simpa using htest)] at hrow
        split at hrow
        · simp at hrow
        · split at hrow
          · simp at hrow
          · split at hrow
            · simp at hrow
            · split at hrow
              · simp at hrow
              · split at hrow
                · simp at hrow
                · dsimp only at hrow
                  rw [Option.some.injEq] at hrow
                  subst hrow
                  dsimp only
                  rfl

/-- Column document fixture: one anchor row with no captured headings and no
member elements. -/
def c10Steps : List ColumnStep := [⟨Headings.empty, [], anchor1⟩]

/-- C10 witness: the record accumulated by the `c10Steps` fixture carries
the fixed default description, which is non-empty. -/
theorem description_never_blank_witness :
    (("371/002/17", newDevApp "371/002/17" "u" "2019-03-01") ∈
      columnFold emptyData "u" "2019-03-01" c10Steps) ∧
    (newDevApp "371/002/17" "u" "2019-03-01").description ≠ "" := by
  have hmem : ("371/002/17", newDevApp "371/002/17" "u" "2019-03-01") ∈
      columnFold emptyData "u" "2019-03-01" c10Steps := by decide
  exact ⟨hmem,
    description_never_blank.2.1 emptyData "u" "2019-03-01" c10Steps _ hmem⟩

end LEP
